import Mathlib

/-!
Verification of the CRM server in `src/app/server.py` against its
natural-language specification.

The embedding models the SQLite store as an explicit `Store` record of
tables (lists of rows in insertion order, with per-table AUTOINCREMENT
counters) and each HTTP handler of `CRMHandler` as a pure function from
a store (plus a time tick standing for `now_iso()`) to a new store and
an HTTP response.  Fallible database statements (foreign-key or NOT NULL
violations, which raise in the Python code before any commit) are
modelled with `Option`: `none` means the request raised and the store is
unchanged (the connection is closed without commit, so SQLite rolls
the half-done work back).

Timestamps are modelled as natural-number ticks; monetary amounts as
`Int` (Python ints / SQLite INTEGER at the magnitudes the API handles).
-/

namespace CRM

/-- Row of the `customers` table (see `init_db`). -/
structure Customer where
  id : Nat
  name : String
  type : String
  email : Option String
  phone : Option String
  status : String
  created_at : Nat
  updated_at : Nat
deriving DecidableEq, Repr

/-- Row of the `addresses` table. -/
structure Address where
  id : Nat
  customer_id : Nat
  line1 : String
  line2 : Option String
  city : Option String
  state : Option String
  postal_code : Option String
  country : String
  is_primary : Int
deriving DecidableEq, Repr

/-- Row of the `contacts` table. -/
structure Contact where
  id : Nat
  customer_id : Nat
  name : String
  email : Option String
  phone : Option String
  role : Option String
deriving DecidableEq, Repr

/-- Row of the `products` table.  Note: products carry only
`created_at`; the table has no `updated_at` column. -/
structure Product where
  id : Nat
  sku : String
  name : String
  description : Option String
  category : Option String
  price_cents : Int
  currency : String
  is_active : Int
  created_at : Nat
deriving DecidableEq, Repr

/-- Row of the `orders` table. -/
structure Order where
  id : Nat
  customer_id : Nat
  status : String
  total_cents : Int
  currency : String
  notes : Option String
  created_at : Nat
  updated_at : Nat
deriving DecidableEq, Repr

/-- Row of the `order_items` table. -/
structure OrderItem where
  id : Nat
  order_id : Nat
  product_id : Nat
  quantity : Int
  unit_price_cents : Int
  line_total_cents : Int
deriving DecidableEq, Repr

/-- Row of the `cases` table.  `order_id` is nullable with
`ON DELETE SET NULL`. -/
structure Case where
  id : Nat
  customer_id : Nat
  order_id : Option Nat
  title : String
  description : Option String
  status : String
  priority : String
  assignee : Option String
  created_at : Nat
  updated_at : Nat
deriving DecidableEq, Repr

/-- The database state: one list per table (rows in rowid order, which
is insertion order) plus the AUTOINCREMENT counter of each table that
the API inserts into. -/
structure Store where
  customers : List Customer
  addresses : List Address
  contacts : List Contact
  products : List Product
  orders : List Order
  order_items : List OrderItem
  cases : List Case
  nextCustomerId : Nat
  nextProductId : Nat
  nextOrderId : Nat
  nextOrderItemId : Nat
  nextCaseId : Nat
deriving DecidableEq, Repr

/-- The freshly initialised database (`init_db` on a new file):
empty tables, AUTOINCREMENT counters at 1. -/
def emptyStore : Store :=
  { customers := [], addresses := [], contacts := [], products := []
    orders := [], order_items := [], cases := []
    nextCustomerId := 1, nextProductId := 1, nextOrderId := 1
    nextOrderItemId := 1, nextCaseId := 1 }

/-- Lookup `SELECT * FROM customers WHERE id=?` (first row or none). -/
def findCustomer (st : Store) (cid : Nat) : Option Customer :=
  st.customers.find? (fun c => c.id = cid)

/-- Lookup `SELECT * FROM products WHERE id=?`. -/
def findProduct (st : Store) (pid : Nat) : Option Product :=
  st.products.find? (fun p => p.id = pid)

/-- Lookup `SELECT * FROM orders WHERE id=?`. -/
def findOrder (st : Store) (oid : Nat) : Option Order :=
  st.orders.find? (fun o => o.id = oid)

/-- Lookup `SELECT * FROM cases WHERE id=?`. -/
def findCase (st : Store) (cid : Nat) : Option Case :=
  st.cases.find? (fun k => k.id = cid)

/-- Lookup `SELECT * FROM order_items WHERE order_id=?`. -/
def itemsOfOrder (st : Store) (oid : Nat) : List OrderItem :=
  st.order_items.filter (fun oi => oi.order_id = oid)

/-! ### SQLite `LIKE` and `ORDER BY`

Every free-text filter in the source is `col LIKE '%q%'`.  SQLite's
`LIKE` is case-insensitive on the ASCII letters A-Z, `%` matches any
run of characters and an underscore matches any single character; a
`NULL` column never matches. -/

/-- Python's `str.strip()` with no argument: remove leading and
trailing whitespace. -/
def strip (s : String) : String :=
  ⟨((s.data.dropWhile Char.isWhitespace).reverse.dropWhile
      Char.isWhitespace).reverse⟩

/-- ASCII-only lower-casing, as SQLite's default `LIKE` folds A-Z. -/
def likeFold (c : Char) : Char :=
  if 'A' ≤ c ∧ c ≤ 'Z' then Char.ofNat (c.toNat + 32) else c

/-- Character match under `LIKE` (non-wildcard position). -/
def likeEq (p c : Char) : Bool :=
  likeFold p = likeFold c

/-- SQLite `LIKE` pattern matching (pattern, then subject). -/
def likeM : List Char → List Char → Bool
  | [], [] => true
  | [], _ :: _ => false
  | '%' :: ps, s =>
    likeM ps s ||
      (match s with
       | [] => false
       | _ :: cs => likeM ('%' :: ps) cs)
  | '_' :: ps, _ :: cs => likeM ps cs
  | '_' :: _, [] => false
  | p :: ps, c :: cs => likeEq p c && likeM ps cs
  | _ :: _, [] => false
termination_by ps s => (ps.length, s.length)

/-- Test `col LIKE '%q%'` for a non-null text column. -/
def likeSub (q col : String) : Bool :=
  likeM ('%' :: (q.data ++ ['%'])) col.data

/-- Test `col LIKE '%q%'` for a nullable column (`NULL` never matches). -/
def likeSubO (q : String) : Option String → Bool
  | some s => likeSub q s
  | none => false

/-- Model of `ORDER BY created_at DESC`, realised as an insertion sort on the
`created_at` projection (descending). -/
def insertDesc (key : α → Nat) (x : α) : List α → List α
  | [] => [x]
  | y :: ys => if key y < key x then x :: y :: ys else y :: insertDesc key x ys

/-- Sort a result set by a `Nat` key, descending. -/
def sortDesc (key : α → Nat) : List α → List α
  | [] => []
  | x :: xs => insertDesc key x (sortDesc key xs)

/-! ### Request inputs

One structure per JSON body shape a handler reads.  An outer `Option`
on a field models presence of the key in the parsed JSON object (the
Python handlers test `f in data` / use `data.get`); for a nullable
column the inner type is again an `Option`. -/

/-- Body of `POST /api/customers` after applying the handler's
`data.get` defaults (absent `name` would insert SQL `NULL` into a
NOT NULL column). -/
structure CustomerInput where
  name : Option String
  type : String
  email : Option String
  phone : Option String
  status : String
deriving DecidableEq, Repr

/-- Body of `PUT /api/customers/{id}`: the whitelist is
`['name', 'type', 'email', 'phone', 'status']`. -/
structure CustomerUpdate where
  name : Option String
  type : Option String
  email : Option (Option String)
  phone : Option (Option String)
  status : Option String
deriving DecidableEq, Repr

/-- Body of `POST /api/products` after `data.get` defaults. -/
structure ProductInput where
  sku : Option String
  name : Option String
  description : Option String
  category : Option String
  price_cents : Int
  currency : String
  is_active : Int
deriving DecidableEq, Repr

/-- Body of `PUT /api/products/{id}`: the whitelist is
`['sku', 'name', 'description', 'category', 'price_cents', 'currency',
'is_active']`. -/
structure ProductUpdate where
  sku : Option String
  name : Option String
  description : Option (Option String)
  category : Option (Option String)
  price_cents : Option Int
  currency : Option String
  is_active : Option Int
deriving DecidableEq, Repr

/-- One element of the `items` array of `POST /api/orders`. -/
structure ItemReq where
  product_id : Nat
  quantity : Option Int
  unit_price_cents : Option Int
deriving DecidableEq, Repr

/-- Body of `POST /api/orders`.  `customer_id := none` models an absent
or non-numeric `customer_id`, on which `int(data.get('customer_id'))`
raises. -/
structure OrderInput where
  customer_id : Option Nat
  currency : String
  notes : Option String
  items : List ItemReq
deriving DecidableEq, Repr

/-- Body of `PUT /api/orders/{id}`.  The handler reads only `status`
and `notes`; `total_cents` models that key being present in the JSON
object — the code never looks at it. -/
structure OrderUpdate where
  status : Option String
  notes : Option (Option String)
  total_cents : Option Int
deriving DecidableEq, Repr

/-- Body of `POST /api/cases`.  `customer_id`/`title` are read with
`data[...]`, so their absence raises (`none` here). -/
structure CaseInput where
  customer_id : Option Nat
  order_id : Option Nat
  title : Option String
  description : Option String
  status : String
  priority : String
  assignee : Option String
deriving DecidableEq, Repr

/-- Body of `PUT /api/cases/{id}`: the whitelist is
`['title', 'description', 'status', 'priority', 'assignee']`. -/
structure CaseUpdate where
  title : Option String
  description : Option (Option String)
  status : Option String
  priority : Option String
  assignee : Option (Option String)
deriving DecidableEq, Repr

/-! ### Responses -/

/-- JSON payload of a response, one constructor per payload shape the
handlers produce with `send_json`. -/
inductive JBody where
  /-- JSON `null` (a `fetchone()` that found nothing, serialised). -/
  | null : JBody
  /-- Error object such as `\x7b"error": "Not found"\x7d`. -/
  | errObj (msg : String) : JBody
  /-- Delete acknowledgement `\x7b"deleted": b\x7d`. -/
  | deletedObj (b : Bool) : JBody
  /-- Bare customer row (create / update responses). -/
  | customerPlain (c : Customer) : JBody
  /-- Customer row enriched with its addresses and contacts (item GET). -/
  | customerRow (c : Customer) (addrs : List Address) (conts : List Contact) : JBody
  /-- Customer list. -/
  | customerList (l : List Customer) : JBody
  /-- Bare product row. -/
  | productPlain (p : Product) : JBody
  /-- Product list. -/
  | productList (l : List Product) : JBody
  /-- Bare order row (update response). -/
  | orderPlain (o : Order) : JBody
  /-- Order with its raw items (create-order response). -/
  | orderWithItems (o : Order) (items : List OrderItem) : JBody
  /-- Order with items joined to the product's sku and name (item GET). -/
  | orderJoined (o : Order) (items : List (OrderItem × String × String)) : JBody
  /-- Order list joined with the customer name. -/
  | orderList (l : List (Order × String)) : JBody
  /-- Bare case row. -/
  | casePlain (k : Case) : JBody
  /-- Case list joined with the customer name. -/
  | caseList (l : List (Case × String)) : JBody
  /-- The four result lists of `/api/search`. -/
  | searchRes (cs : List Customer) (ps : List Product) (os : List Order)
      (ks : List Case) : JBody
  /-- The six counters of `/api/dashboard`. -/
  | dashboard (customers products orders cases open_cases pending_orders : Nat) : JBody
deriving DecidableEq, Repr

/-- An HTTP response as produced by `send_json(handler, status, payload)`. -/
structure HResp where
  status : Nat
  body : JBody
deriving DecidableEq, Repr

/-- Response of `not_found(handler)`: 404 with `\x7b"error": "Not found"\x7d`. -/
def notFoundResp : HResp := ⟨404, .errObj "Not found"⟩

/-- HTTP verbs the server dispatches to `handle_api`. -/
inductive Method where
  | GET | POST | PUT | DELETE
deriving DecidableEq, Repr

/-- Decoded request body, as passed to whichever handler runs.  The
handlers parse the body themselves (`parse_json`), so a request can
carry any of these shapes to any route; `empty` is the `\x7b\x7d` that
`parse_json` yields for an absent or malformed body. -/
inductive ReqBody where
  | empty : ReqBody
  | customerC (i : CustomerInput) : ReqBody
  | customerU (u : CustomerUpdate) : ReqBody
  | productC (i : ProductInput) : ReqBody
  | productU (u : ProductUpdate) : ReqBody
  | orderC (i : OrderInput) : ReqBody
  | orderU (u : OrderUpdate) : ReqBody
  | caseC (i : CaseInput) : ReqBody
  | caseU (u : CaseUpdate) : ReqBody
deriving DecidableEq, Repr

/-- Read the body as a customer-create input; any other shape behaves
as the empty JSON object with the handler's `data.get` defaults. -/
def ReqBody.asCustomerC : ReqBody → CustomerInput
  | .customerC i => i
  | _ => ⟨none, "Individual", none, none, "Active"⟩

/-- Read the body as a customer-update input (empty object otherwise). -/
def ReqBody.asCustomerU : ReqBody → CustomerUpdate
  | .customerU u => u
  | _ => ⟨none, none, none, none, none⟩

/-- Read the body as a product-create input (defaults otherwise). -/
def ReqBody.asProductC : ReqBody → ProductInput
  | .productC i => i
  | _ => ⟨none, none, none, none, 0, "USD", 1⟩

/-- Read the body as a product-update input (empty object otherwise). -/
def ReqBody.asProductU : ReqBody → ProductUpdate
  | .productU u => u
  | _ => ⟨none, none, none, none, none, none, none⟩

/-- Read the body as an order-create input (defaults otherwise). -/
def ReqBody.asOrderC : ReqBody → OrderInput
  | .orderC i => i
  | _ => ⟨none, "USD", none, []⟩

/-- Read the body as an order-update input (empty object otherwise). -/
def ReqBody.asOrderU : ReqBody → OrderUpdate
  | .orderU u => u
  | _ => ⟨none, none, none⟩

/-- Read the body as a case-create input (defaults otherwise). -/
def ReqBody.asCaseC : ReqBody → CaseInput
  | .caseC i => i
  | _ => ⟨none, none, none, none, "Open", "Medium", none⟩

/-- Read the body as a case-update input (empty object otherwise). -/
def ReqBody.asCaseU : ReqBody → CaseUpdate
  | .caseU u => u
  | _ => ⟨none, none, none, none, none⟩

/-- An inbound API request: verb, URL path, the `q` query parameter
(`parse_qs` + `get('q', [''])[0]` already applied; `""` when absent)
and the decoded body. -/
structure Request where
  method : Method
  path : String
  q : String
  body : ReqBody
deriving DecidableEq, Repr

/-! ### Customer handlers (`api_customers`, `api_customer_by_id`) -/

/-- GET branch of `api_customers`: optional free-text filter over
name/email, then `ORDER BY created_at DESC`. -/
def listCustomers (st : Store) (q : String) : HResp :=
  let qt := strip q
  let rows :=
    if qt ≠ "" then
      st.customers.filter (fun c => likeSub qt c.name || likeSubO qt c.email)
    else
      st.customers
  ⟨200, .customerList (sortDesc (fun c => c.created_at) rows)⟩

/-- POST branch of `api_customers`: insert with `created_at =
updated_at = now`, re-select the new id, answer 201.  A missing `name`
violates the NOT NULL constraint and raises (`none`). -/
def createCustomer (t : Nat) (st : Store) (i : CustomerInput) :
    Option (Store × HResp) :=
  match i.name with
  | none => none
  | some nm =>
    let c : Customer :=
      ⟨st.nextCustomerId, nm, i.type, i.email, i.phone, i.status, t, t⟩
    let st' := { st with customers := st.customers ++ [c],
                         nextCustomerId := st.nextCustomerId + 1 }
    match findCustomer st' c.id with
    | some row => some (st', ⟨201, .customerPlain row⟩)
    | none => none

/-- GET branch of `api_customer_by_id`: the row enriched with its
addresses and contacts, or 404. -/
def getCustomer (st : Store) (cid : Nat) : HResp :=
  match findCustomer st cid with
  | none => notFoundResp
  | some c =>
    ⟨200, .customerRow c
      (st.addresses.filter (fun a => a.customer_id = cid))
      (st.contacts.filter (fun k => k.customer_id = cid))⟩

/-- Application of the customer whitelist to one row; `updated_at` is
appended to the SET list unconditionally. -/
def applyCustomerUpdate (t : Nat) (u : CustomerUpdate) (c : Customer) : Customer :=
  { c with
    name := u.name.getD c.name
    type := u.type.getD c.type
    email := u.email.getD c.email
    phone := u.phone.getD c.phone
    status := u.status.getD c.status
    updated_at := t }

/-- PUT branch of `api_customer_by_id`: whitelist update (the SET list
is never empty since `updated_at` is always added), then re-select and
answer 200 with the row — or JSON `null` when the id matched nothing. -/
def updateCustomer (t : Nat) (st : Store) (cid : Nat) (u : CustomerUpdate) :
    Store × HResp :=
  let st' := { st with
    customers :=
      st.customers.map (fun c => if c.id = cid then applyCustomerUpdate t u c else c) }
  (st', ⟨200, match findCustomer st' cid with
              | some row => .customerPlain row
              | none => .null⟩)

/-- DELETE branch of `api_customer_by_id`.  With `PRAGMA foreign_keys
= ON` the delete cascades: addresses, contacts, orders (and, through
orders, order items) and cases of the customer go away; a case of a
*different* customer that referenced a cascaded order gets `order_id`
set to NULL. -/
def deleteCustomer (st : Store) (cid : Nat) : Store × HResp :=
  let deadOrder : Nat → Bool := fun oid =>
    st.orders.any (fun o => o.id = oid && o.customer_id = cid)
  ({ st with
      customers := st.customers.filter (fun c => c.id ≠ cid)
      addresses := st.addresses.filter (fun a => a.customer_id ≠ cid)
      contacts := st.contacts.filter (fun k => k.customer_id ≠ cid)
      orders := st.orders.filter (fun o => o.customer_id ≠ cid)
      order_items := st.order_items.filter (fun oi => ¬ deadOrder oi.order_id)
      cases := (st.cases.filter (fun k => k.customer_id ≠ cid)).map
        (fun k => match k.order_id with
                  | some oid => if deadOrder oid then { k with order_id := none } else k
                  | none => k) },
   ⟨200, .deletedObj true⟩)

/-- Dispatch of `api_customers(method, parsed)` on the verb; the final
`else` answers `not_found`. -/
def api_customers (t : Nat) (st : Store) (method : Method) (q : String)
    (body : ReqBody) : Option (Store × HResp) :=
  match method with
  | .GET => some (st, listCustomers st q)
  | .POST => createCustomer t st body.asCustomerC
  | _ => some (st, notFoundResp)

/-- Dispatch of `api_customer_by_id(method, parsed, cid)` on the verb. -/
def api_customer_by_id (t : Nat) (st : Store) (method : Method) (cid : Nat)
    (body : ReqBody) : Option (Store × HResp) :=
  match method with
  | .GET => some (st, getCustomer st cid)
  | .PUT => some (updateCustomer t st cid body.asCustomerU)
  | .DELETE => some (deleteCustomer st cid)
  | _ => some (st, notFoundResp)

/-! ### Product handlers (`api_products`, `api_product_by_id`) -/

/-- GET branch of `api_products`: optional free-text filter over
name/sku, then `ORDER BY created_at DESC`. -/
def listProducts (st : Store) (q : String) : HResp :=
  let qt := strip q
  let rows :=
    if qt ≠ "" then
      st.products.filter (fun p => likeSub qt p.name || likeSub qt p.sku)
    else
      st.products
  ⟨200, .productList (sortDesc (fun p => p.created_at) rows)⟩

/-- POST branch of `api_products`: insert and answer 201.  A missing
`sku` or `name` violates NOT NULL, a duplicate `sku` violates UNIQUE;
both raise (`none`). -/
def createProduct (t : Nat) (st : Store) (i : ProductInput) :
    Option (Store × HResp) :=
  match i.sku, i.name with
  | some sk, some nm =>
    if st.products.any (fun p => p.sku = sk) then none
    else
      let p : Product :=
        ⟨st.nextProductId, sk, nm, i.description, i.category,
         i.price_cents, i.currency, i.is_active, t⟩
      let st' := { st with products := st.products ++ [p],
                           nextProductId := st.nextProductId + 1 }
      match findProduct st' p.id with
      | some row => some (st', ⟨201, .productPlain row⟩)
      | none => none
  | _, _ => none

/-- GET branch of `api_product_by_id`. -/
def getProduct (st : Store) (pid : Nat) : HResp :=
  match findProduct st pid with
  | none => notFoundResp
  | some p => ⟨200, .productPlain p⟩

/-- Application of the product whitelist to one row.  The products
table has no `updated_at` column and the handler adds nothing beyond
the whitelisted fields. -/
def applyProductUpdate (u : ProductUpdate) (p : Product) : Product :=
  { p with
    sku := u.sku.getD p.sku
    name := u.name.getD p.name
    description := u.description.getD p.description
    category := u.category.getD p.category
    price_cents := u.price_cents.getD p.price_cents
    currency := u.currency.getD p.currency
    is_active := u.is_active.getD p.is_active }

/-- Presence test for the `if sets:` guard of the product PUT branch:
the UPDATE statement only runs when at least one whitelisted field is
in the input. -/
def ProductUpdate.hasField (u : ProductUpdate) : Bool :=
  u.sku.isSome || u.name.isSome || u.description.isSome || u.category.isSome ||
    u.price_cents.isSome || u.currency.isSome || u.is_active.isSome

/-- PUT branch of `api_product_by_id`: whitelist update guarded by
`if sets:` (no whitelisted field in the input means no UPDATE at all),
then re-select and answer 200 with the row, or JSON `null`. -/
def updateProduct (st : Store) (pid : Nat) (u : ProductUpdate) :
    Store × HResp :=
  let st' :=
    if u.hasField then
      { st with products :=
          st.products.map (fun p => if p.id = pid then applyProductUpdate u p else p) }
    else st
  (st', ⟨200, match findProduct st' pid with
              | some row => .productPlain row
              | none => .null⟩)

/-- DELETE branch of `api_product_by_id`.  `order_items.product_id`
references products with no ON DELETE action, so deleting a product
that an order item still references raises a foreign-key violation
(`none`); otherwise the delete succeeds whether or not the row
existed. -/
def deleteProduct (st : Store) (pid : Nat) : Option (Store × HResp) :=
  if st.products.any (fun p => p.id = pid) &&
      st.order_items.any (fun oi => oi.product_id = pid) then
    none
  else
    some ({ st with products := st.products.filter (fun p => p.id ≠ pid) },
          ⟨200, .deletedObj true⟩)

/-- Dispatch of `api_products(method, parsed)` on the verb. -/
def api_products (t : Nat) (st : Store) (method : Method) (q : String)
    (body : ReqBody) : Option (Store × HResp) :=
  match method with
  | .GET => some (st, listProducts st q)
  | .POST => createProduct t st body.asProductC
  | _ => some (st, notFoundResp)

/-- Dispatch of `api_product_by_id(method, parsed, pid)` on the verb.
No branch reads the clock: the product handler never calls
`now_iso()`. -/
def api_product_by_id (_t : Nat) (st : Store) (method : Method) (pid : Nat)
    (body : ReqBody) : Option (Store × HResp) :=
  match method with
  | .GET => some (st, getProduct st pid)
  | .PUT => some (updateProduct st pid body.asProductU)
  | .DELETE => deleteProduct st pid
  | _ => some (st, notFoundResp)

/-! ### Order handlers (`api_orders`, `api_order_by_id`) -/

/-- GET branch of `api_orders`: inner join with customers for the
customer name, `ORDER BY o.created_at DESC`. -/
def listOrders (st : Store) : HResp :=
  let joined := st.orders.filterMap
    (fun o => (findCustomer st o.customer_id).map (fun cu => (o, cu.name)))
  ⟨200, .orderList (sortDesc (fun x => x.1.created_at) joined)⟩

/-- The item loop of the POST branch of `api_orders`: walk the
requested items, skip any whose product id finds no row, otherwise
insert an order item priced at the caller-supplied unit price if
present (else the product's current price), and accumulate the sum of
the line totals. -/
def insertItems (oid : Nat) (st : Store) : List ItemReq → Store × Int
  | [] => (st, 0)
  | it :: rest =>
    match findProduct st it.product_id with
    | none => insertItems oid st rest
    | some prod =>
      let quantity := it.quantity.getD 1
      let unit := it.unit_price_cents.getD prod.price_cents
      let line := unit * quantity
      let oi : OrderItem :=
        ⟨st.nextOrderItemId, oid, it.product_id, quantity, unit, line⟩
      let st' := { st with order_items := st.order_items ++ [oi],
                           nextOrderItemId := st.nextOrderItemId + 1 }
      let r := insertItems oid st' rest
      (r.1, line + r.2)

/-- POST branch of `api_orders`: insert the order with status
`Pending` and `total_cents = 0`, run the item loop, write the computed
total (and a fresh `updated_at`) back, then answer 201 with the order
and its items.  `customer_id := none` models the `int(None)` crash;
a missing customer violates the orders foreign key. -/
def createOrder (t : Nat) (st : Store) (i : OrderInput) :
    Option (Store × HResp) :=
  match i.customer_id with
  | none => none
  | some cid =>
    if st.customers.any (fun c => c.id = cid) then
      let oid := st.nextOrderId
      let o : Order := ⟨oid, cid, "Pending", 0, i.currency, i.notes, t, t⟩
      let st1 := { st with orders := st.orders ++ [o],
                           nextOrderId := st.nextOrderId + 1 }
      let r := insertItems oid st1 i.items
      let st3 := { r.1 with
        orders := r.1.orders.map
          (fun o' => if o'.id = oid then
              { o' with total_cents := r.2, updated_at := t } else o') }
      match findOrder st3 oid with
      | some row => some (st3, ⟨201, .orderWithItems row (itemsOfOrder st3 oid)⟩)
      | none => none
    else none

/-- GET branch of `api_order_by_id`: the order with its items joined
to each product's sku and name, or 404. -/
def getOrder (st : Store) (oid : Nat) : HResp :=
  match findOrder st oid with
  | none => notFoundResp
  | some o =>
    ⟨200, .orderJoined o ((itemsOfOrder st oid).filterMap
      (fun oi => (findProduct st oi.product_id).map (fun p => (oi, p.sku, p.name))))⟩

/-- Application of the order update to one row: only `status` and
`notes` are honoured, plus the unconditional `updated_at`.  The
`total_cents` component of the input is never read. -/
def applyOrderUpdate (t : Nat) (u : OrderUpdate) (o : Order) : Order :=
  { o with
    status := u.status.getD o.status
    notes := u.notes.getD o.notes
    updated_at := t }

/-- PUT branch of `api_order_by_id` (the SET list is never empty since
`updated_at` is always appended): update, re-select, answer 200 with
the row or JSON `null`. -/
def updateOrder (t : Nat) (st : Store) (oid : Nat) (u : OrderUpdate) :
    Store × HResp :=
  let st' := { st with
    orders :=
      st.orders.map (fun o => if o.id = oid then applyOrderUpdate t u o else o) }
  (st', ⟨200, match findOrder st' oid with
              | some row => .orderPlain row
              | none => .null⟩)

/-- DELETE branch of `api_order_by_id`: the order's items are
cascade-deleted and any case referencing the order has `order_id` set
to NULL. -/
def deleteOrder (st : Store) (oid : Nat) : Store × HResp :=
  ({ st with
      orders := st.orders.filter (fun o => o.id ≠ oid)
      order_items := st.order_items.filter (fun oi => oi.order_id ≠ oid)
      cases := st.cases.map
        (fun k => if k.order_id = some oid then { k with order_id := none } else k) },
   ⟨200, .deletedObj true⟩)

/-- Dispatch of `api_orders(method, parsed)` on the verb. -/
def api_orders (t : Nat) (st : Store) (method : Method) (body : ReqBody) :
    Option (Store × HResp) :=
  match method with
  | .GET => some (st, listOrders st)
  | .POST => createOrder t st body.asOrderC
  | _ => some (st, notFoundResp)

/-- Dispatch of `api_order_by_id(method, parsed, oid)` on the verb. -/
def api_order_by_id (t : Nat) (st : Store) (method : Method) (oid : Nat)
    (body : ReqBody) : Option (Store × HResp) :=
  match method with
  | .GET => some (st, getOrder st oid)
  | .PUT => some (updateOrder t st oid body.asOrderU)
  | .DELETE => some (deleteOrder st oid)
  | _ => some (st, notFoundResp)

/-! ### Case handlers (`api_cases`, `api_case_by_id`) -/

/-- GET branch of `api_cases`: inner join with customers for the
customer name, `ORDER BY cs.created_at DESC`. -/
def listCases (st : Store) : HResp :=
  let joined := st.cases.filterMap
    (fun k => (findCustomer st k.customer_id).map (fun cu => (k, cu.name)))
  ⟨200, .caseList (sortDesc (fun x => x.1.created_at) joined)⟩

/-- POST branch of `api_cases`: insert and answer 201.  A missing
`customer_id` or `title` raises (`data[...]` key error); a missing
customer, or a supplied `order_id` with no such order, violates a
foreign key. -/
def createCase (t : Nat) (st : Store) (i : CaseInput) :
    Option (Store × HResp) :=
  match i.customer_id, i.title with
  | some cid, some ttl =>
    if st.customers.any (fun c => c.id = cid) &&
        (match i.order_id with
         | some oid => st.orders.any (fun o => o.id = oid)
         | none => true) then
      let k : Case :=
        ⟨st.nextCaseId, cid, i.order_id, ttl, i.description, i.status,
         i.priority, i.assignee, t, t⟩
      let st' := { st with cases := st.cases ++ [k],
                           nextCaseId := st.nextCaseId + 1 }
      match findCase st' k.id with
      | some row => some (st', ⟨201, .casePlain row⟩)
      | none => none
    else none
  | _, _ => none

/-- GET branch of `api_case_by_id`. -/
def getCase (st : Store) (cid : Nat) : HResp :=
  match findCase st cid with
  | none => notFoundResp
  | some k => ⟨200, .casePlain k⟩

/-- Application of the case whitelist to one row; `updated_at` is
appended unconditionally. -/
def applyCaseUpdate (t : Nat) (u : CaseUpdate) (k : Case) : Case :=
  { k with
    title := u.title.getD k.title
    description := u.description.getD k.description
    status := u.status.getD k.status
    priority := u.priority.getD k.priority
    assignee := u.assignee.getD k.assignee
    updated_at := t }

/-- PUT branch of `api_case_by_id` (the SET list is never empty since
`updated_at` is always appended): update, re-select, answer 200 with
the row or JSON `null`. -/
def updateCase (t : Nat) (st : Store) (cid : Nat) (u : CaseUpdate) :
    Store × HResp :=
  let st' := { st with
    cases :=
      st.cases.map (fun k => if k.id = cid then applyCaseUpdate t u k else k) }
  (st', ⟨200, match findCase st' cid with
              | some row => .casePlain row
              | none => .null⟩)

/-- DELETE branch of `api_case_by_id`: nothing references cases, so
the delete always succeeds. -/
def deleteCase (st : Store) (cid : Nat) : Store × HResp :=
  ({ st with cases := st.cases.filter (fun k => k.id ≠ cid) },
   ⟨200, .deletedObj true⟩)

/-- Dispatch of `api_cases(method, parsed)` on the verb. -/
def api_cases (t : Nat) (st : Store) (method : Method) (body : ReqBody) :
    Option (Store × HResp) :=
  match method with
  | .GET => some (st, listCases st)
  | .POST => createCase t st body.asCaseC
  | _ => some (st, notFoundResp)

/-- Dispatch of `api_case_by_id(method, parsed, cid)` on the verb. -/
def api_case_by_id (t : Nat) (st : Store) (method : Method) (cid : Nat)
    (body : ReqBody) : Option (Store × HResp) :=
  match method with
  | .GET => some (st, getCase st cid)
  | .PUT => some (updateCase t st cid body.asCaseU)
  | .DELETE => some (deleteCase st cid)
  | _ => some (st, notFoundResp)

/-! ### Search and dashboard -/

/-- Handler `api_search(method, parsed)`: with a non-empty (stripped)
query, four independent `LIKE '%q%' LIMIT 10` lookups; with an empty
query, four empty lists.  The `method` parameter is taken, as in the
source, and never read. -/
def api_search (method : Method) (st : Store) (q : String) : HResp :=
  let qt := strip q
  if qt ≠ "" then
    ⟨200, .searchRes
      ((st.customers.filter (fun c => likeSub qt c.name || likeSubO qt c.email)).take 10)
      ((st.products.filter (fun p => likeSub qt p.name || likeSub qt p.sku)).take 10)
      ((st.orders.filter (fun o => likeSub qt (toString o.id))).take 10)
      ((st.cases.filter (fun k => likeSub qt k.title)).take 10)⟩
  else
    ⟨200, .searchRes [] [] [] []⟩

/-- Handler `api_dashboard(method, parsed)`: six fresh counts.  The
`method` parameter is taken, as in the source, and never read. -/
def api_dashboard (method : Method) (st : Store) : HResp :=
  ⟨200, .dashboard
    st.customers.length
    st.products.length
    st.orders.length
    st.cases.length
    (st.cases.countP (fun k => k.status = "Open" || k.status = "In Progress"))
    (st.orders.countP (fun o => o.status = "Pending" || o.status = "Confirmed"))⟩

/-! ### Router (`handle_api`)

The route table is an ordered list of anchored regular expressions;
each is either an exact literal (`^/api/customers$`) or a literal
followed by one `(\d+)` identifier group (`^/api/customers/(\d+)$`).
We realise the two shapes directly: strip the literal, and for the
identifier shape require a non-empty all-digit remainder. -/

/-- Strip a literal pattern from the front of the subject, giving the
remainder on success. -/
def dropPref : List Char → List Char → Option (List Char)
  | [], l => some l
  | _ :: _, [] => none
  | p :: ps, c :: cs => if p = c then dropPref ps cs else none

/-- Decimal reading of an all-digit segment (Python's `int(...)`). -/
def digitsToNat (l : List Char) : Nat :=
  l.foldl (fun n c => n * 10 + (c.toNat - 48)) 0

/-- Match of an exact pattern `^pat$`. -/
def matchExact (pat : List Char) (path : List Char) : Bool :=
  dropPref pat path = some []

/-- Match of an identifier pattern `^pat(\d+)$` (the literal `pat`
ends with the slash), giving the captured id. -/
def matchId (pat : List Char) (path : List Char) : Option Nat :=
  match dropPref pat path with
  | some rest =>
    if rest ≠ [] && rest.all Char.isDigit then some (digitsToNat rest) else none
  | none => none

/-- The handler a matched route dispatches to, with the captured id
for the item routes. -/
inductive ApiRoute where
  | custCol | custItem (id : Nat)
  | prodCol | prodItem (id : Nat)
  | ordCol | ordItem (id : Nat)
  | caseCol | caseItem (id : Nat)
  | search | dashboard
deriving DecidableEq, Repr

/-- First-match-wins walk of the route table of `handle_api`, in
source order. -/
def routeFor (path : String) : Option ApiRoute :=
  let l := path.data
  if matchExact "/api/customers".data l then some .custCol
  else match matchId "/api/customers/".data l with
  | some i => some (.custItem i)
  | none =>
  if matchExact "/api/products".data l then some .prodCol
  else match matchId "/api/products/".data l with
  | some i => some (.prodItem i)
  | none =>
  if matchExact "/api/orders".data l then some .ordCol
  else match matchId "/api/orders/".data l with
  | some i => some (.ordItem i)
  | none =>
  if matchExact "/api/cases".data l then some .caseCol
  else match matchId "/api/cases/".data l with
  | some i => some (.caseItem i)
  | none =>
  if matchExact "/api/search".data l then some .search
  else if matchExact "/api/dashboard".data l then some .dashboard
  else none

/-- Dispatcher `handle_api`: route the path, run the matched handler
with the verb and captured id, or answer `not_found` when no pattern
matches.  `none` models a handler that raised. -/
def handleApi (t : Nat) (st : Store) (req : Request) : Option (Store × HResp) :=
  match routeFor req.path with
  | none => some (st, notFoundResp)
  | some .custCol => api_customers t st req.method req.q req.body
  | some (.custItem i) => api_customer_by_id t st req.method i req.body
  | some .prodCol => api_products t st req.method req.q req.body
  | some (.prodItem i) => api_product_by_id t st req.method i req.body
  | some .ordCol => api_orders t st req.method req.body
  | some (.ordItem i) => api_order_by_id t st req.method i req.body
  | some .caseCol => api_cases t st req.method req.body
  | some (.caseItem i) => api_case_by_id t st req.method i req.body
  | some .search => some (st, api_search req.method st req.q)
  | some .dashboard => some (st, api_dashboard req.method st)

/-! ### Reachable states and the totals invariant -/

/-- Specification invariant: every order's `total_cents` is the sum of
its items' `line_total_cents`. -/
def TotalsInv (st : Store) : Prop :=
  ∀ o ∈ st.orders, o.total_cents =
    ((itemsOfOrder st o.id).map (fun oi => oi.line_total_cents)).sum

/-- Bookkeeping facts about ids that every store the server can build
satisfies: ids already used stay below the AUTOINCREMENT counter and
order ids are pairwise distinct. -/
def OrdersWf (st : Store) : Prop :=
  (∀ o ∈ st.orders, o.id < st.nextOrderId) ∧
  (∀ oi ∈ st.order_items, oi.order_id < st.nextOrderId) ∧
  (st.orders.map (fun o => o.id)).Nodup

/-- Stores reachable from a fresh database through the API's mutating
operations.  A request that raises (the `none` results) commits
nothing, so it does not change the store and needs no constructor. -/
inductive Reachable : Store → Prop where
  | init : Reachable emptyStore
  | stepCreateCustomer {st st' : Store} {t : Nat} {i : CustomerInput} {r : HResp} :
      Reachable st → createCustomer t st i = some (st', r) → Reachable st'
  | stepUpdateCustomer {st : Store} {t cid : Nat} {u : CustomerUpdate} :
      Reachable st → Reachable (updateCustomer t st cid u).1
  | stepDeleteCustomer {st : Store} {cid : Nat} :
      Reachable st → Reachable (deleteCustomer st cid).1
  | stepCreateProduct {st st' : Store} {t : Nat} {i : ProductInput} {r : HResp} :
      Reachable st → createProduct t st i = some (st', r) → Reachable st'
  | stepUpdateProduct {st : Store} {pid : Nat} {u : ProductUpdate} :
      Reachable st → Reachable (updateProduct st pid u).1
  | stepDeleteProduct {st st' : Store} {pid : Nat} {r : HResp} :
      Reachable st → deleteProduct st pid = some (st', r) → Reachable st'
  | stepCreateOrder {st st' : Store} {t : Nat} {i : OrderInput} {r : HResp} :
      Reachable st → createOrder t st i = some (st', r) → Reachable st'
  | stepUpdateOrder {st : Store} {t oid : Nat} {u : OrderUpdate} :
      Reachable st → Reachable (updateOrder t st oid u).1
  | stepDeleteOrder {st : Store} {oid : Nat} :
      Reachable st → Reachable (deleteOrder st oid).1
  | stepCreateCase {st st' : Store} {t : Nat} {i : CaseInput} {r : HResp} :
      Reachable st → createCase t st i = some (st', r) → Reachable st'
  | stepUpdateCase {st : Store} {t cid : Nat} {u : CaseUpdate} :
      Reachable st → Reachable (updateCase t st cid u).1
  | stepDeleteCase {st : Store} {cid : Nat} :
      Reachable st → Reachable (deleteCase st cid).1

/-! ### Concrete stores for witnesses and counterexamples -/

/-- An update input carrying no whitelisted customer field. -/
def noFieldsCU : CustomerUpdate := ⟨none, none, none, none, none⟩

/-- An update input carrying no whitelisted product field. -/
def noFieldsPU : ProductUpdate := ⟨none, none, none, none, none, none, none⟩

/-- An update input carrying no whitelisted order field (and no
`total_cents` key). -/
def noFieldsOU : OrderUpdate := ⟨none, none, none⟩

/-- An update input carrying no whitelisted case field. -/
def noFieldsKU : CaseUpdate := ⟨none, none, none, none, none⟩

/-- A store with one customer and one product (priced 3000). -/
def demoStore : Store :=
  { emptyStore with
    customers := [⟨1, "Jane Doe", "Individual", some "jane@example.com", none,
                   "Active", 0, 0⟩]
    nextCustomerId := 2
    products := [⟨1, "PLAN-5G-BASIC", "5G Basic Plan", none, some "Plan",
                  3000, "USD", 1, 0⟩]
    nextProductId := 2 }

/-- `demoStore` extended with an order of two units of the product. -/
def orderedStore : Store :=
  { demoStore with
    orders := [⟨1, 1, "Pending", 6000, "USD", none, 0, 0⟩]
    nextOrderId := 2
    order_items := [⟨1, 1, 1, 2, 3000, 6000⟩]
    nextOrderItemId := 2 }

/-- `orderedStore` extended with an address, a contact and a case of
the customer (the case referencing the order). -/
def fullStore : Store :=
  { orderedStore with
    addresses := [⟨1, 1, "100 Main St", none, none, none, none, "US", 1⟩]
    contacts := [⟨1, 1, "Sam Ops", none, none, some "Operations"⟩]
    cases := [⟨1, 1, some 1, "SIM not activating", none, "Open", "High",
               none, 0, 0⟩]
    nextCaseId := 2 }

/-- The store after creating one customer on a fresh database. -/
def oneCustomerStore : Store :=
  { emptyStore with
    customers := [⟨1, "Jane", "Individual", none, none, "Active", 0, 0⟩]
    nextCustomerId := 2 }

/-! ## Theorems -/

/-- If an id finds no customer row, the customer UPDATE statement
changes nothing. -/
theorem customers_map_absent (t : Nat) (st : Store) (cid : Nat)
    (u : CustomerUpdate) (h : findCustomer st cid = none) :
    st.customers.map
      (fun c => if c.id = cid then applyCustomerUpdate t u c else c)
      = st.customers := by
  have h' := List.find?_eq_none.mp h
  refine (List.map_congr_left fun c hc => ?_).trans st.customers.map_id
  have hne := h' c hc
  simp at hne
  simp [hne]

/-- If an id finds no order row, the order UPDATE statement changes
nothing. -/
theorem orders_map_absent (t : Nat) (st : Store) (oid : Nat)
    (u : OrderUpdate) (h : findOrder st oid = none) :
    st.orders.map (fun o => if o.id = oid then applyOrderUpdate t u o else o)
      = st.orders := by
  have h' := List.find?_eq_none.mp h
  refine (List.map_congr_left fun o ho => ?_).trans st.orders.map_id
  have hne := h' o ho
  simp at hne
  simp [hne]

/-- If an id finds no case row, the case UPDATE statement changes
nothing. -/
theorem cases_map_absent (t : Nat) (st : Store) (cid : Nat)
    (u : CaseUpdate) (h : findCase st cid = none) :
    st.cases.map (fun k => if k.id = cid then applyCaseUpdate t u k else k)
      = st.cases := by
  have h' := List.find?_eq_none.mp h
  refine (List.map_congr_left fun k hk => ?_).trans st.cases.map_id
  have hne := h' k hk
  simp at hne
  simp [hne]

/-- If an id finds no product row, the product UPDATE statement
changes nothing. -/
theorem products_map_absent (st : Store) (pid : Nat)
    (u : ProductUpdate) (h : findProduct st pid = none) :
    st.products.map (fun p => if p.id = pid then applyProductUpdate u p else p)
      = st.products := by
  have h' := List.find?_eq_none.mp h
  refine (List.map_congr_left fun p hp => ?_).trans st.products.map_id
  have hne := h' p hp
  simp at hne
  simp [hne]

/-- C9: a product update (in particular a `price_cents` change) leaves
every order item — its `unit_price_cents` and `line_total_cents` — and
every order's `total_cents` untouched: the item price is a snapshot,
not a live reference; and updating with `\x7b"price_cents": v\x7d`
really does change the stored product price. -/
theorem product_price_is_snapshot (st : Store) (pid : Nat) (v : Int)
    (u : ProductUpdate) :
    (updateProduct st pid u).1.order_items = st.order_items ∧
    (updateProduct st pid u).1.orders = st.orders ∧
    (∀ oid, itemsOfOrder (updateProduct st pid u).1 oid = itemsOfOrder st oid) ∧
    (updateProduct st pid ⟨none, none, none, none, some v, none, none⟩).1.products
      = st.products.map
          (fun p => if p.id = pid then { p with price_cents := v } else p) := by
  refine ⟨?_, ?_, ?_, ?_⟩
  · by_cases hf : u.hasField <;> simp [updateProduct, hf]
  · by_cases hf : u.hasField <;> simp [updateProduct, hf]
  · intro oid
    by_cases hf : u.hasField <;> simp [updateProduct, hf, itemsOfOrder]
  · simp [updateProduct, ProductUpdate.hasField, applyProductUpdate]

/-- C3 counterexample: for products the claim fails.  The products
table has no `updated_at` column at all, and a product update whose
input carries no whitelisted field runs no UPDATE statement: the store
comes back bit-for-bit unchanged (nothing is refreshed), together with
a 200 response carrying the untouched row. -/
theorem product_update_no_refresh_counterexample :
    updateProduct demoStore 1 noFieldsPU
      = (demoStore, ⟨200, .productPlain ⟨1, "PLAN-5G-BASIC", "5G Basic Plan",
          none, some "Plan", 3000, "USD", 1, 0⟩⟩) := by
  decide

/-- C3 amended: customer, order and case updates refresh `updated_at`
to the current tick even when no whitelisted field is in the input,
and then `updated_at` is the only field that changes; a product update
with no whitelisted field in the input is a complete no-op (products
have no `updated_at`), and a product update carrying only
`price_cents` changes only that field. -/
theorem update_refreshes_updated_at (t : Nat) (st : Store) (idv : Nat)
    (tc : Option Int) (v : Int) :
    ((updateCustomer t st idv noFieldsCU).1.customers
      = st.customers.map
          (fun c => if c.id = idv then { c with updated_at := t } else c)) ∧
    ((updateOrder t st idv ⟨none, none, tc⟩).1.orders
      = st.orders.map
          (fun o => if o.id = idv then { o with updated_at := t } else o)) ∧
    ((updateCase t st idv noFieldsKU).1.cases
      = st.cases.map
          (fun k => if k.id = idv then { k with updated_at := t } else k)) ∧
    ((updateProduct st idv noFieldsPU).1 = st) ∧
    ((updateProduct st idv ⟨none, none, none, none, some v, none, none⟩).1.products
      = st.products.map
          (fun p => if p.id = idv then { p with price_cents := v } else p)) := by
  refine ⟨?_, ?_, ?_, ?_, ?_⟩
  · simp [updateCustomer, applyCustomerUpdate, noFieldsCU]
  · simp [updateOrder, applyOrderUpdate]
  · simp [updateCase, applyCaseUpdate, noFieldsKU]
  · simp [updateProduct, ProductUpdate.hasField, noFieldsPU]
  · simp [updateProduct, ProductUpdate.hasField, applyProductUpdate]

/-- C4 counterexample: updating a customer id that does not exist
(id 1 on the empty store) is answered with HTTP 200 and a JSON `null`
body — a success result, not the 404 "not found" result. -/
theorem update_missing_id_200_counterexample :
    (updateCustomer 0 emptyStore 1 noFieldsCU).2 = ⟨200, .null⟩ ∧
    (updateCustomer 0 emptyStore 1 noFieldsCU).2 ≠ notFoundResp := by
  decide

/-- C4 amended: an update on an id with no row is not distinguished
from success: for all four entities the handler answers HTTP 200 with
a JSON `null` record (the post-update re-select finds nothing), never
the 404 not-found result. -/
theorem update_missing_id_answers_null (t : Nat) (st : Store) (idv : Nat)
    (cu : CustomerUpdate) (pu : ProductUpdate) (ou : OrderUpdate)
    (ku : CaseUpdate) :
    (findCustomer st idv = none → (updateCustomer t st idv cu).2 = ⟨200, .null⟩) ∧
    (findProduct st idv = none → (updateProduct st idv pu).2 = ⟨200, .null⟩) ∧
    (findOrder st idv = none → (updateOrder t st idv ou).2 = ⟨200, .null⟩) ∧
    (findCase st idv = none → (updateCase t st idv ku).2 = ⟨200, .null⟩) := by
  refine ⟨fun h => ?_, fun h => ?_, fun h => ?_, fun h => ?_⟩
  · have he := customers_map_absent t st idv cu h
    rw [findCustomer] at h
    simp [updateCustomer, findCustomer, he, h]
  · have he := products_map_absent st idv pu h
    rw [findProduct] at h
    by_cases hf : pu.hasField <;> simp [updateProduct, findProduct, hf, he, h]
  · have he := orders_map_absent t st idv ou h
    rw [findOrder] at h
    simp [updateOrder, findOrder, he, h]
  · have he := cases_map_absent t st idv ku h
    rw [findCase] at h
    simp [updateCase, findCase, he, h]

/-- C4 amended, witness at a concrete input: id 1 on the empty store. -/
theorem update_missing_id_answers_null_witness :
    findCustomer emptyStore 1 = none ∧
    (updateCustomer 0 emptyStore 1 noFieldsCU).2 = ⟨200, .null⟩ :=
  ⟨by decide,
   (update_missing_id_answers_null 0 emptyStore 1 noFieldsCU noFieldsPU
      noFieldsOU noFieldsKU).1 (by decide)⟩

/-- C5 counterexample: deleting a product that an order item still
references is not a success.  In `orderedStore` product 1 is referenced
by order item 1, and with `PRAGMA foreign_keys = ON` the DELETE raises
a foreign-key violation instead of answering `deleted: true`. -/
theorem delete_referenced_product_counterexample :
    deleteProduct orderedStore 1 = none := by
  decide

/-- C5 amended: customer, order and case deletes always succeed with
`\x7b"deleted": true\x7d` whether or not a row with the id exists, and a
product delete does too whenever no order item references the id (in
particular for any non-existent id); but deleting a product that an
order item references fails with a foreign-key violation. -/
theorem delete_is_idempotent (st : Store) (idv : Nat) :
    (deleteCustomer st idv).2 = ⟨200, .deletedObj true⟩ ∧
    (deleteOrder st idv).2 = ⟨200, .deletedObj true⟩ ∧
    (deleteCase st idv).2 = ⟨200, .deletedObj true⟩ ∧
    ((st.products.any (fun p => p.id = idv) &&
        st.order_items.any (fun oi => oi.product_id = idv)) = false →
      ∃ st', deleteProduct st idv = some (st', ⟨200, .deletedObj true⟩)) := by
  refine ⟨rfl, rfl, rfl, fun h => ?_⟩
  refine ⟨{ st with products := st.products.filter (fun p => p.id ≠ idv) }, ?_⟩
  simp [deleteProduct, h]

/-- C5 amended, witness: deleting the non-existent order 42 and the
non-existent product 5 of `demoStore`. -/
theorem delete_is_idempotent_witness :
    (deleteOrder demoStore 42).2 = ⟨200, .deletedObj true⟩ ∧
    ((demoStore.products.any (fun p => p.id = 5) &&
        demoStore.order_items.any (fun oi => oi.product_id = 5)) = false) ∧
    ∃ st', deleteProduct demoStore 5 = some (st', ⟨200, .deletedObj true⟩) :=
  ⟨(delete_is_idempotent demoStore 42).2.1, by decide,
   (delete_is_idempotent demoStore 5).2.2.2 (by decide)⟩

/-- C10: `/api/search` and `/api/dashboard` run identically under
every verb — `handle_api` passes the verb on, and the two handlers
never read it.  In particular DELETE `/api/dashboard` answers 200 with
the six counters, and POST `/api/search` performs the search. -/
theorem search_dashboard_ignore_method (m : Method) (t : Nat) (st : Store)
    (q : String) (b : ReqBody) :
    handleApi t st ⟨m, "/api/search", q, b⟩ = some (st, api_search m st q) ∧
    api_search m st q = api_search .GET st q ∧
    handleApi t st ⟨m, "/api/dashboard", q, b⟩ = some (st, api_dashboard m st) ∧
    api_dashboard m st = api_dashboard .GET st ∧
    api_dashboard m st = ⟨200, .dashboard st.customers.length st.products.length
      st.orders.length st.cases.length
      (st.cases.countP (fun k => k.status = "Open" || k.status = "In Progress"))
      (st.orders.countP (fun o => o.status = "Pending" || o.status = "Confirmed"))⟩ := by
  have hs : routeFor "/api/search" = some .search := by decide
  have hd : routeFor "/api/dashboard" = some .dashboard := by decide
  refine ⟨?_, rfl, ?_, rfl, rfl⟩
  · simp [handleApi, hs]
  · simp [handleApi, hd]

/-- Inserting into a descending-sorted list permutes consing. -/
theorem insertDesc_perm (key : α → Nat) (x : α) (l : List α) :
    (insertDesc key x l).Perm (x :: l) := by
  induction l with
  | nil => exact List.Perm.refl _
  | cons y ys ih =>
    simp only [insertDesc]
    by_cases h : key y < key x
    · simp [h]
    · simp only [h, if_neg, if_false]
      exact (ih.cons y).trans (List.Perm.swap x y ys)

/-- The `ORDER BY` sort returns a permutation of its input. -/
theorem sortDesc_perm (key : α → Nat) (l : List α) :
    (sortDesc key l).Perm l := by
  induction l with
  | nil => exact List.Perm.refl _
  | cons x xs ih =>
    exact (insertDesc_perm key x (sortDesc key xs)).trans (ih.cons x)

/-- C7: the cross-entity search with an empty (stripped) query returns
four empty lists whatever the store holds; with any query it returns
all four lists, each at most 10 rows and each returned row matching
the query under the code's `LIKE '%q%'` test on that entity's columns
(customer name/email, product name/sku, order id as text, case title);
while the per-entity customer list with no filter returns every
customer row. -/
theorem search_bounded_and_empty (m : Method) (st : Store) (q : String) :
    (strip q = "" → api_search m st q = ⟨200, .searchRes [] [] [] []⟩) ∧
    (∃ cs ps os ks, api_search m st q = ⟨200, .searchRes cs ps os ks⟩ ∧
      cs.length ≤ 10 ∧ ps.length ≤ 10 ∧ os.length ≤ 10 ∧ ks.length ≤ 10 ∧
      (∀ c ∈ cs, (likeSub (strip q) c.name || likeSubO (strip q) c.email) = true) ∧
      (∀ p ∈ ps, (likeSub (strip q) p.name || likeSub (strip q) p.sku) = true) ∧
      (∀ o ∈ os, likeSub (strip q) (toString o.id) = true) ∧
      (∀ k ∈ ks, likeSub (strip q) k.title = true)) ∧
    (∃ l, listCustomers st "" = ⟨200, .customerList l⟩ ∧ l.Perm st.customers) := by
  have htrim : strip "" = "" := by decide
  refine ⟨fun h => by simp [api_search, h], ?_, ?_⟩
  · by_cases h : strip q = ""
    · exact ⟨[], [], [], [], by simp [api_search, h], by simp, by simp,
        by simp, by simp, by simp, by simp, by simp, by simp⟩
    · refine
        ⟨(st.customers.filter
            (fun c => likeSub (strip q) c.name || likeSubO (strip q) c.email)).take 10,
         (st.products.filter
            (fun p => likeSub (strip q) p.name || likeSub (strip q) p.sku)).take 10,
         (st.orders.filter (fun o => likeSub (strip q) (toString o.id))).take 10,
         (st.cases.filter (fun k => likeSub (strip q) k.title)).take 10,
         by simp [api_search, h], List.length_take_le 10 _,
         List.length_take_le 10 _, List.length_take_le 10 _,
         List.length_take_le 10 _, ?_, ?_, ?_, ?_⟩ <;>
      · intro x hx
        exact (List.mem_filter.mp
          (List.Sublist.mem hx (List.take_sublist 10 _))).2
  · exact ⟨sortDesc (fun c => c.created_at) st.customers,
      by simp [listCustomers, htrim], sortDesc_perm _ _⟩

/-- C7 witness: concrete empty query against the demo store. -/
theorem search_bounded_and_empty_witness :
    strip "" = "" ∧
    api_search .GET demoStore "" = ⟨200, .searchRes [] [] [] []⟩ :=
  ⟨by decide, (search_bounded_and_empty .GET demoStore "").1 (by decide)⟩

/-- Stripping a literal prefix succeeds exactly on an extension of the
prefix, giving back the extension. -/
theorem dropPref_eq_some (p : List Char) :
    ∀ l r, dropPref p l = some r ↔ l = p ++ r := by
  induction p with
  | nil => intro l r; simp [dropPref]
  | cons a ps ih =>
    intro l r
    cases l with
    | nil => simp [dropPref]
    | cons b bs =>
      simp only [dropPref]
      by_cases hab : a = b
      · subst hab; simp [ih]
      · simp [hab, Ne.symm hab]

/-- Stripping a prefix from itself plus a tail gives the tail. -/
theorem dropPref_append (p r : List Char) : dropPref p (p ++ r) = some r :=
  (dropPref_eq_some p (p ++ r) r).mpr rfl

/-- Two decompositions of a list at a character that neither front
part contains agree. -/
theorem split_at_char {x : Char} :
    ∀ {a c : List Char} {b d : List Char}, x ∉ a → x ∉ c →
      a ++ x :: b = c ++ x :: d → a = c ∧ b = d := by
  intro a
  induction a with
  | nil =>
    intro c b d _ hc h
    cases c with
    | nil => simp_all
    | cons c0 cs =>
      simp only [List.nil_append, List.cons_append, List.cons.injEq] at h
      exact absurd (h.1 ▸ List.mem_cons_self c0 cs) hc
  | cons a0 as ih =>
    intro c b d ha hc h
    cases c with
    | nil =>
      simp only [List.cons_append, List.nil_append, List.cons.injEq] at h
      exact absurd (h.1.symm ▸ List.mem_cons_self a0 as) ha
    | cons c0 cs =>
      simp only [List.cons_append, List.cons.injEq] at h
      obtain ⟨h1, h2⟩ := h
      have ha' : x ∉ as := fun hx => ha (List.mem_cons_of_mem a0 hx)
      have hc' : x ∉ cs := fun hx => hc (List.mem_cons_of_mem c0 hx)
      obtain ⟨e1, e2⟩ := ih ha' hc' h2
      exact ⟨by rw [h1, e1], e2⟩

/-- A literal collection pattern `^/api/name$` (slash-free `name`)
never matches a path that continues with `/<segment>`. -/
theorem matchExact_no_slash (rest rd sd : List Char) (hrest : '/' ∉ rest) :
    matchExact ("/api/".data ++ rest) ("/api/".data ++ (rd ++ '/' :: sd))
      = false := by
  simp only [matchExact, decide_eq_false_iff_not]
  intro h
  rw [dropPref_eq_some] at h
  simp only [List.append_nil] at h
  have h' := List.append_cancel_left h
  rw [← h'] at hrest
  simp at hrest

/-- An identifier pattern `^/api/name/(\d+)$` (slash-free `name`)
never matches `/api/<resource>/<segment>` when the segment is not all
digits (resource slash-free). -/
theorem matchId_no_digits (name rd sd : List Char) (hname : '/' ∉ name)
    (hrd : '/' ∉ rd) (hsd : ¬ sd.all Char.isDigit = true) :
    matchId ("/api/".data ++ (name ++ ['/']))
      ("/api/".data ++ (rd ++ '/' :: sd)) = none := by
  unfold matchId
  cases h : dropPref ("/api/".data ++ (name ++ ['/']))
      ("/api/".data ++ (rd ++ '/' :: sd)) with
  | none => rfl
  | some rest =>
    rw [dropPref_eq_some] at h
    simp only [List.append_assoc] at h
    have h' := List.append_cancel_left h
    rw [List.singleton_append] at h'
    obtain ⟨e1, e2⟩ := split_at_char hrd hname h'
    rw [← e2]
    simp [hsd]

/-- No route pattern matches `/api/<resource>/<segment>` when the
segment is not a run of digits. -/
theorem routeFor_slash_nonnum (res seg : String) (hres : '/' ∉ res.data)
    (hnd : ¬ seg.data.all Char.isDigit = true) :
    routeFor ("/api/" ++ res ++ "/" ++ seg) = none := by
  have hdata : ("/api/" ++ res ++ "/" ++ seg).data
      = "/api/".data ++ (res.data ++ '/' :: seg.data) := by
    rw [String.data_append, String.data_append, String.data_append]
    rw [show ("/" : String).data = ['/'] from rfl]
    simp [List.append_assoc]
  have hc1 : matchExact "/api/customers".data
      ("/api/".data ++ (res.data ++ '/' :: seg.data)) = false :=
    matchExact_no_slash "customers".data res.data seg.data (by decide)
  have hc2 : matchId "/api/customers/".data
      ("/api/".data ++ (res.data ++ '/' :: seg.data)) = none :=
    matchId_no_digits "customers".data res.data seg.data (by decide) hres hnd
  have hp1 : matchExact "/api/products".data
      ("/api/".data ++ (res.data ++ '/' :: seg.data)) = false :=
    matchExact_no_slash "products".data res.data seg.data (by decide)
  have hp2 : matchId "/api/products/".data
      ("/api/".data ++ (res.data ++ '/' :: seg.data)) = none :=
    matchId_no_digits "products".data res.data seg.data (by decide) hres hnd
  have ho1 : matchExact "/api/orders".data
      ("/api/".data ++ (res.data ++ '/' :: seg.data)) = false :=
    matchExact_no_slash "orders".data res.data seg.data (by decide)
  have ho2 : matchId "/api/orders/".data
      ("/api/".data ++ (res.data ++ '/' :: seg.data)) = none :=
    matchId_no_digits "orders".data res.data seg.data (by decide) hres hnd
  have hk1 : matchExact "/api/cases".data
      ("/api/".data ++ (res.data ++ '/' :: seg.data)) = false :=
    matchExact_no_slash "cases".data res.data seg.data (by decide)
  have hk2 : matchId "/api/cases/".data
      ("/api/".data ++ (res.data ++ '/' :: seg.data)) = none :=
    matchId_no_digits "cases".data res.data seg.data (by decide) hres hnd
  have hs1 : matchExact "/api/search".data
      ("/api/".data ++ (res.data ++ '/' :: seg.data)) = false :=
    matchExact_no_slash "search".data res.data seg.data (by decide)
  have hd1 : matchExact "/api/dashboard".data
      ("/api/".data ++ (res.data ++ '/' :: seg.data)) = false :=
    matchExact_no_slash "dashboard".data res.data seg.data (by decide)
  simp only [routeFor, hdata, hc1, hc2, hp1, hp2, ho1, ho2, hk1, hk2, hs1, hd1]
  rfl

/-- An all-digit identifier segment matches the item route of each
resource, with the segment read as a decimal number. -/
theorem routeFor_digits (ds : String) (hne : ds.data ≠ [])
    (hdig : ds.data.all Char.isDigit = true) :
    routeFor ("/api/customers/" ++ ds) = some (.custItem (digitsToNat ds.data)) ∧
    routeFor ("/api/products/" ++ ds) = some (.prodItem (digitsToNat ds.data)) ∧
    routeFor ("/api/orders/" ++ ds) = some (.ordItem (digitsToNat ds.data)) ∧
    routeFor ("/api/cases/" ++ ds) = some (.caseItem (digitsToNat ds.data)) := by
  have hdig' := List.all_eq_true.mp hdig
  refine ⟨?_, ?_, ?_, ?_⟩
  · have hdata : ("/api/customers/" ++ ds).data
        = "/api/customers/".data ++ ds.data := String.data_append _ _
    simp only [routeFor, hdata]
    simp [matchExact, matchId, dropPref, hne, hdig']
    rw [if_pos hdig']
  · have hdata : ("/api/products/" ++ ds).data
        = "/api/products/".data ++ ds.data := String.data_append _ _
    simp only [routeFor, hdata]
    simp [matchExact, matchId, dropPref, hne, hdig']
    rw [if_pos hdig']
  · have hdata : ("/api/orders/" ++ ds).data
        = "/api/orders/".data ++ ds.data := String.data_append _ _
    simp only [routeFor, hdata]
    simp [matchExact, matchId, dropPref, hne, hdig']
    rw [if_pos hdig']
  · have hdata : ("/api/cases/" ++ ds).data
        = "/api/cases/".data ++ ds.data := String.data_append _ _
    simp only [routeFor, hdata]
    simp [matchExact, matchId, dropPref, hne, hdig']
    rw [if_pos hdig']

/-- C8: a path `/api/<resource>/<segment>` whose segment is not a
non-empty run of decimal digits matches no route, and the dispatcher
answers 404 with `\x7b"error": "Not found"\x7d`; an all-digit segment is
read as an unsigned decimal integer and dispatched to the matching
item route. -/
theorem router_nonnumeric_segment (res seg ds : String) (m : Method)
    (t : Nat) (st : Store) (q : String) (b : ReqBody)
    (hres : '/' ∉ res.data)
    (hnd : ¬ seg.data.all Char.isDigit = true)
    (hne : ds.data ≠ []) (hdig : ds.data.all Char.isDigit = true) :
    routeFor ("/api/" ++ res ++ "/" ++ seg) = none ∧
    handleApi t st ⟨m, "/api/" ++ res ++ "/" ++ seg, q, b⟩
      = some (st, ⟨404, .errObj "Not found"⟩) ∧
    routeFor ("/api/customers/" ++ ds) = some (.custItem (digitsToNat ds.data)) ∧
    routeFor ("/api/products/" ++ ds) = some (.prodItem (digitsToNat ds.data)) ∧
    routeFor ("/api/orders/" ++ ds) = some (.ordItem (digitsToNat ds.data)) ∧
    routeFor ("/api/cases/" ++ ds) = some (.caseItem (digitsToNat ds.data)) := by
  have hnone := routeFor_slash_nonnum res seg hres hnd
  obtain ⟨d1, d2, d3, d4⟩ := routeFor_digits ds hne hdig
  exact ⟨hnone, by simp [handleApi, hnone, notFoundResp], d1, d2, d3, d4⟩

/-- C8 witness: the non-numeric segment `abc` under `customers` is a
404 and the numeric segment `42` is dispatched with id 42. -/
theorem router_nonnumeric_segment_witness :
    routeFor ("/api/" ++ "customers" ++ "/" ++ "abc") = none ∧
    handleApi 0 emptyStore ⟨.GET, "/api/" ++ "customers" ++ "/" ++ "abc", "", .empty⟩
      = some (emptyStore, ⟨404, .errObj "Not found"⟩) ∧
    routeFor ("/api/customers/" ++ "42") = some (.custItem 42) := by
  have h := router_nonnumeric_segment "customers" "abc" "42" .GET 0 emptyStore
    "" .empty (by decide) (by decide) (by decide) (by decide)
  exact ⟨h.1, h.2.1, h.2.2.1⟩

/-- C6: deleting a customer cascades — its addresses, contacts,
orders (with their order items) and cases are all removed, and a
subsequent GET of a removed order or case id answers 404 — while
deleting an order only nulls the `order_id` of its cases instead of
deleting them. -/
theorem delete_customer_cascades (st : Store) (cid : Nat)
    (hord : (st.orders.map (fun o => o.id)).Nodup)
    (hcase : (st.cases.map (fun k => k.id)).Nodup) :
    ((deleteCustomer st cid).1.customers
      = st.customers.filter (fun c => c.id ≠ cid)) ∧
    ((deleteCustomer st cid).1.addresses
      = st.addresses.filter (fun a => a.customer_id ≠ cid)) ∧
    ((deleteCustomer st cid).1.contacts
      = st.contacts.filter (fun k => k.customer_id ≠ cid)) ∧
    ((deleteCustomer st cid).1.orders
      = st.orders.filter (fun o => o.customer_id ≠ cid)) ∧
    (∀ a ∈ st.addresses, a.customer_id = cid →
      a ∉ (deleteCustomer st cid).1.addresses) ∧
    (∀ c ∈ st.contacts, c.customer_id = cid →
      c ∉ (deleteCustomer st cid).1.contacts) ∧
    (∀ oi ∈ st.order_items, ∀ o ∈ st.orders, o.id = oi.order_id →
      o.customer_id = cid → oi ∉ (deleteCustomer st cid).1.order_items) ∧
    (∀ o ∈ st.orders, o.customer_id = cid →
      findOrder (deleteCustomer st cid).1 o.id = none ∧
      getOrder (deleteCustomer st cid).1 o.id = notFoundResp) ∧
    (∀ k ∈ st.cases, k.customer_id = cid →
      findCase (deleteCustomer st cid).1 k.id = none ∧
      getCase (deleteCustomer st cid).1 k.id = notFoundResp) ∧
    (∀ oid, (deleteOrder st oid).1.cases = st.cases.map
      (fun k => if k.order_id = some oid then { k with order_id := none } else k)) := by
  refine ⟨rfl, rfl, rfl, rfl, ?_, ?_, ?_, ?_, ?_, fun oid => rfl⟩
  · intro a ha hac hmem
    have := (List.mem_filter.mp hmem).2
    simp [hac] at this
  · intro c hc hcc hmem
    have := (List.mem_filter.mp hmem).2
    simp [hcc] at this
  · intro oi hoi o ho hid hcust hmem
    have hpred := (List.mem_filter.mp hmem).2
    have hdead : st.orders.any
        (fun o' => o'.id = oi.order_id && o'.customer_id = cid) = true :=
      List.any_eq_true.mpr ⟨o, ho, by simp [hid, hcust]⟩
    simp [deleteCustomer] at hpred
    exact absurd (List.any_eq_true.mp hdead) (by simpa using hpred)
  · intro o ho hcust
    have hfind : findOrder (deleteCustomer st cid).1 o.id = none := by
      apply List.find?_eq_none.mpr
      intro r hr
      simp only [decide_eq_true_eq]
      intro hrid
      have hrmem : r ∈ st.orders :=
        List.Sublist.mem hr (List.filter_sublist st.orders)
      have : r = o := List.inj_on_of_nodup_map hord hrmem ho hrid
      subst this
      have := (List.mem_filter.mp hr).2
      simp [hcust] at this
    exact ⟨hfind, by simp [getOrder, hfind]⟩
  · intro k hk hcust
    have hfind : findCase (deleteCustomer st cid).1 k.id = none := by
      apply List.find?_eq_none.mpr
      intro r hr
      simp only [decide_eq_true_eq]
      intro hrid
      simp only [deleteCustomer, List.mem_map] at hr
      obtain ⟨r0, hr0, hgr⟩ := hr
      have hr0id : r0.id = r.id := by
        rw [← hgr]
        cases hro : r0.order_id <;> simp [hro]
        split <;> rfl
      have hr0mem : r0 ∈ st.cases :=
        List.Sublist.mem hr0 (List.filter_sublist st.cases)
      have : r0 = k := List.inj_on_of_nodup_map hcase hr0mem hk (by rw [hr0id, hrid])
      subst this
      have := (List.mem_filter.mp hr0).2
      simp [hcust] at this
    exact ⟨hfind, by simp [getCase, hfind]⟩

/-- C6 witness: deleting customer 1 of `fullStore` removes its order
and case; fetching them afterwards is a 404. -/
theorem delete_customer_cascades_witness :
    (fullStore.orders.map (fun o => o.id)).Nodup ∧
    getOrder (deleteCustomer fullStore 1).1 1 = notFoundResp ∧
    getCase (deleteCustomer fullStore 1).1 1 = notFoundResp := by
  obtain ⟨-, -, -, -, -, -, -, hords, hcases, -⟩ :=
    delete_customer_cascades fullStore 1 (by decide) (by decide)
  refine ⟨by decide, ?_, ?_⟩
  · exact (hords ⟨1, 1, "Pending", 6000, "USD", none, 0, 0⟩ (by decide) rfl).2
  · exact (hcases ⟨1, 1, some 1, "SIM not activating", none, "Open", "High",
      none, 0, 0⟩ (by decide) rfl).2

/-- Characterisation of the item loop: it appends one order item per
requested item whose product exists (in request order, priced by the
caller-supplied unit price when present, else the product's current
price), touches nothing else, and returns the sum of the inserted
line totals. -/
theorem insertItems_spec (oid : Nat) :
    ∀ (st : Store) (items : List ItemReq), ∃ L : List OrderItem,
      (insertItems oid st items).1.order_items = st.order_items ++ L ∧
      (insertItems oid st items).1.customers = st.customers ∧
      (insertItems oid st items).1.products = st.products ∧
      (insertItems oid st items).1.orders = st.orders ∧
      (insertItems oid st items).1.cases = st.cases ∧
      (insertItems oid st items).1.nextOrderId = st.nextOrderId ∧
      (∀ oi ∈ L, oi.order_id = oid) ∧
      (L.map (fun oi => (oi.product_id, oi.quantity, oi.unit_price_cents,
          oi.line_total_cents))
        = items.filterMap (fun it => (findProduct st it.product_id).map
            (fun p => (it.product_id, it.quantity.getD 1,
              it.unit_price_cents.getD p.price_cents,
              it.unit_price_cents.getD p.price_cents * it.quantity.getD 1)))) ∧
      (insertItems oid st items).2
        = (L.map (fun oi => oi.line_total_cents)).sum := by
  intro st items
  induction items generalizing st with
  | nil => exact ⟨[], by simp [insertItems]⟩
  | cons it rest ih =>
    cases hfp : findProduct st it.product_id with
    | none =>
      obtain ⟨L, h1, h2, h3, h4, h5, h6, h7, h8, h9⟩ := ih st
      refine ⟨L, ?_, ?_, ?_, ?_, ?_, ?_, h7, ?_, ?_⟩ <;>
        simp [insertItems, hfp, h1, h2, h3, h4, h5, h6, h8, h9]
    | some p =>
      obtain ⟨L, h1, h2, h3, h4, h5, h6, h7, h8, h9⟩ :=
        ih { st with
          order_items := st.order_items ++
            [⟨st.nextOrderItemId, oid, it.product_id, it.quantity.getD 1,
              it.unit_price_cents.getD p.price_cents,
              it.unit_price_cents.getD p.price_cents * it.quantity.getD 1⟩]
          nextOrderItemId := st.nextOrderItemId + 1 }
      simp only [findProduct] at h8
      refine ⟨⟨st.nextOrderItemId, oid, it.product_id, it.quantity.getD 1,
          it.unit_price_cents.getD p.price_cents,
          it.unit_price_cents.getD p.price_cents * it.quantity.getD 1⟩ :: L,
        ?_, ?_, ?_, ?_, ?_, ?_, ?_, ?_, ?_⟩
      · simp only [insertItems, hfp]
        rw [h1]
        simp
      · simp only [insertItems, hfp]
        rw [h2]
      · simp only [insertItems, hfp]
        rw [h3]
      · simp only [insertItems, hfp]
        rw [h4]
      · simp only [insertItems, hfp]
        rw [h5]
      · simp only [insertItems, hfp]
        rw [h6]
      · intro oi hoi
        rcases List.mem_cons.mp hoi with h | h
        · rw [h]
        · exact h7 oi h
      · simp only [List.map_cons, List.filterMap_cons, hfp, Option.map_some]
        rw [h8]
        simp [findProduct]
      · simp only [insertItems, hfp]
        rw [h9]
        simp

/-- C1: a create-order request inserts an order with status `Pending`;
every requested item whose product exists becomes one order item with
`line_total_cents = quantity * unit_price` where the unit price is the
caller-supplied `unit_price_cents` when present and the product's
current `price_cents` otherwise; items whose product id finds no row
are dropped silently; the order's `total_cents` ends as the sum of the
inserted items' line totals — zero items and zero total when every
requested product is missing. -/
theorem create_order_correct (t : Nat) (st : Store) (cid : Nat)
    (cur : String) (notes : Option String) (items : List ItemReq)
    (hcust : st.customers.any (fun c => c.id = cid) = true)
    (hofresh : ∀ o ∈ st.orders, o.id ≠ st.nextOrderId)
    (hifresh : ∀ oi ∈ st.order_items, oi.order_id ≠ st.nextOrderId) :
    ∃ (st' : Store) (o : Order) (L : List OrderItem),
      createOrder t st ⟨some cid, cur, notes, items⟩
        = some (st', ⟨201, .orderWithItems o L⟩) ∧
      o.status = "Pending" ∧ o.customer_id = cid ∧
      st'.orders = st.orders ++ [o] ∧
      st'.order_items = st.order_items ++ L ∧
      itemsOfOrder st' o.id = L ∧
      (L.map (fun oi => (oi.product_id, oi.quantity, oi.unit_price_cents,
          oi.line_total_cents))
        = items.filterMap (fun it => (findProduct st it.product_id).map
            (fun p => (it.product_id, it.quantity.getD 1,
              it.unit_price_cents.getD p.price_cents,
              it.unit_price_cents.getD p.price_cents * it.quantity.getD 1)))) ∧
      o.total_cents = (L.map (fun oi => oi.line_total_cents)).sum ∧
      ((∀ it ∈ items, findProduct st it.product_id = none) →
        L = [] ∧ o.total_cents = 0) := by
  obtain ⟨L, h1, h2, h3, h4, h5, h6, h7, h8, h9⟩ :=
    insertItems_spec st.nextOrderId
      { st with
        orders := st.orders ++
          [⟨st.nextOrderId, cid, "Pending", 0, cur, notes, t, t⟩]
        nextOrderId := st.nextOrderId + 1 }
      items
  simp only [findProduct] at h8
  set r := insertItems st.nextOrderId
      { st with
        orders := st.orders ++
          [⟨st.nextOrderId, cid, "Pending", 0, cur, notes, t, t⟩]
        nextOrderId := st.nextOrderId + 1 }
      items with hr
  -- the final UPDATE leaves the old orders alone and rewrites the new row
  have hmap : r.1.orders.map
      (fun o' => if o'.id = st.nextOrderId then
        { o' with total_cents := r.2, updated_at := t } else o')
      = st.orders ++
        [⟨st.nextOrderId, cid, "Pending", r.2, cur, notes, t, t⟩] := by
    rw [h4]
    rw [List.map_append]
    congr 1
    · refine (List.map_congr_left fun o ho => ?_).trans st.orders.map_id
      simp [hofresh o ho]
    · simp
  have hfind : List.find?
      (fun o => o.id = st.nextOrderId)
      (st.orders ++
        [⟨st.nextOrderId, cid, "Pending", r.2, cur, notes, t, t⟩])
      = some ⟨st.nextOrderId, cid, "Pending", r.2, cur, notes, t, t⟩ := by
    rw [List.find?_append]
    have hnone : List.find? (fun o => o.id = st.nextOrderId) st.orders = none :=
      List.find?_eq_none.mpr (fun o ho => by simp [hofresh o ho])
    rw [hnone]
    simp
  have hitems : List.filter (fun oi => oi.order_id = st.nextOrderId)
      (st.order_items ++ L) = L := by
    rw [List.filter_append]
    rw [List.filter_eq_nil_iff.mpr (fun oi hoi => by simp [hifresh oi hoi])]
    rw [List.filter_eq_self.mpr (fun oi hoi => by simp [h7 oi hoi])]
    simp
  have h1' : r.1.order_items = st.order_items ++ L := by simpa using h1
  refine ⟨{ r.1 with orders := st.orders ++
      [⟨st.nextOrderId, cid, "Pending", r.2, cur, notes, t, t⟩] },
    ⟨st.nextOrderId, cid, "Pending", r.2, cur, notes, t, t⟩, L,
    ?_, rfl, rfl, rfl, ?_, ?_, ?_, ?_, ?_⟩
  · simp only [createOrder, hcust, ← hr]
    rw [hmap]
    simp only [findOrder]
    rw [hfind]
    simp only [itemsOfOrder, h1', hitems]
    simp
  · exact h1'
  · simp only [itemsOfOrder, h1', hitems]
  · rw [h8]
    simp [findProduct]
  · rw [h9]
  · intro hmiss
    have hnil : L.map (fun oi => (oi.product_id, oi.quantity,
        oi.unit_price_cents, oi.line_total_cents)) = [] := by
      rw [h8]
      refine List.filterMap_eq_nil_iff.mpr (fun it hit => ?_)
      have := hmiss it hit
      simp only [findProduct] at this
      simp [this]
    have hL : L = [] := List.map_eq_nil_iff.mp hnil
    rw [h9, hL]
    simp [hL]

/-- C1 witness: customer 1 of `demoStore` orders two units of product
1 plus one unit of the non-existent product 9. -/
theorem create_order_correct_witness :
    (demoStore.customers.any (fun c => c.id = 1)) = true ∧
    ∃ st' o L,
      createOrder 5 demoStore
        ⟨some 1, "USD", none, [⟨1, some 2, none⟩, ⟨9, some 1, none⟩]⟩
        = some (st', ⟨201, .orderWithItems o L⟩) ∧
      o.status = "Pending" ∧
      o.total_cents = (L.map (fun oi => oi.line_total_cents)).sum := by
  obtain ⟨st', o, L, e1, e2, -, -, -, -, -, e8, -⟩ :=
    create_order_correct 5 demoStore 1 "USD" none
      [⟨1, some 2, none⟩, ⟨9, some 1, none⟩] (by decide) (by decide) (by decide)
  exact ⟨by decide, st', o, L, e1, e2, e8⟩

/-- Transfer of the totals invariant along equal order data. -/
theorem totalsInv_frame {st st' : Store} (ho : st'.orders = st.orders)
    (hoi : st'.order_items = st.order_items) (h : TotalsInv st) :
    TotalsInv st' := by
  intro o hmem
  rw [ho] at hmem
  have := h o hmem
  rwa [itemsOfOrder, hoi, ← itemsOfOrder]

/-- Transfer of the id bookkeeping along equal order data. -/
theorem ordersWf_frame {st st' : Store} (ho : st'.orders = st.orders)
    (hoi : st'.order_items = st.order_items)
    (hn : st'.nextOrderId = st.nextOrderId) (h : OrdersWf st) :
    OrdersWf st' := by
  obtain ⟨w1, w2, w3⟩ := h
  exact ⟨by rw [ho, hn]; exact w1, by rw [hoi, hn]; exact w2, by rw [ho]; exact w3⟩

/-- A successful customer insert touches no order data. -/
theorem createCustomer_frame {t : Nat} {st st' : Store} {i : CustomerInput}
    {r : HResp} (h : createCustomer t st i = some (st', r)) :
    st'.orders = st.orders ∧ st'.order_items = st.order_items ∧
      st'.nextOrderId = st.nextOrderId := by
  cases hn : i.name with
  | none => simp [createCustomer, hn] at h
  | some nm =>
    simp only [createCustomer, hn] at h
    cases hf : findCustomer { st with
        customers := st.customers ++
          [⟨st.nextCustomerId, nm, i.type, i.email, i.phone, i.status, t, t⟩]
        nextCustomerId := st.nextCustomerId + 1 } st.nextCustomerId with
    | none => rw [hf] at h; exact absurd h (by simp)
    | some row =>
      rw [hf] at h
      obtain ⟨h1, -⟩ := Prod.mk.injEq .. ▸ Option.some.injEq .. ▸ h
      rw [← h1]
      exact ⟨rfl, rfl, rfl⟩

/-- A successful product insert touches no order data. -/
theorem createProduct_frame {t : Nat} {st st' : Store} {i : ProductInput}
    {r : HResp} (h : createProduct t st i = some (st', r)) :
    st'.orders = st.orders ∧ st'.order_items = st.order_items ∧
      st'.nextOrderId = st.nextOrderId := by
  cases hs : i.sku with
  | none => simp [createProduct, hs] at h
  | some sk =>
    cases hn : i.name with
    | none => simp [createProduct, hs, hn] at h
    | some nm =>
      simp only [createProduct, hs, hn] at h
      by_cases hdup : st.products.any (fun p => p.sku = sk) = true
      · rw [if_pos hdup] at h; exact absurd h (by simp)
      · rw [if_neg hdup] at h
        cases hf : findProduct { st with
            products := st.products ++
              [⟨st.nextProductId, sk, nm, i.description, i.category,
                i.price_cents, i.currency, i.is_active, t⟩]
            nextProductId := st.nextProductId + 1 } st.nextProductId with
        | none => rw [hf] at h; exact absurd h (by simp)
        | some row =>
          rw [hf] at h
          obtain ⟨h1, -⟩ := Prod.mk.injEq .. ▸ Option.some.injEq .. ▸ h
          rw [← h1]
          exact ⟨rfl, rfl, rfl⟩

/-- A successful case insert touches no order data. -/
theorem createCase_frame {t : Nat} {st st' : Store} {i : CaseInput}
    {r : HResp} (h : createCase t st i = some (st', r)) :
    st'.orders = st.orders ∧ st'.order_items = st.order_items ∧
      st'.nextOrderId = st.nextOrderId := by
  cases hc : i.customer_id with
  | none => simp [createCase, hc] at h
  | some cid =>
    cases ht : i.title with
    | none => simp [createCase, hc, ht] at h
    | some ttl =>
      simp only [createCase, hc, ht] at h
      by_cases hok : (st.customers.any (fun c => c.id = cid) &&
          (match i.order_id with
           | some oid => st.orders.any (fun o => o.id = oid)
           | none => true)) = true
      · rw [if_pos hok] at h
        cases hf : findCase { st with
            cases := st.cases ++
              [⟨st.nextCaseId, cid, i.order_id, ttl, i.description, i.status,
                i.priority, i.assignee, t, t⟩]
            nextCaseId := st.nextCaseId + 1 } st.nextCaseId with
        | none => rw [hf] at h; exact absurd h (by simp)
        | some row =>
          rw [hf] at h
          obtain ⟨h1, -⟩ := Prod.mk.injEq .. ▸ Option.some.injEq .. ▸ h
          rw [← h1]
          exact ⟨rfl, rfl, rfl⟩
      · rw [if_neg hok] at h; exact absurd h (by simp)

/-- A successful product delete touches no order data. -/
theorem deleteProduct_frame {st st' : Store} {pid : Nat} {r : HResp}
    (h : deleteProduct st pid = some (st', r)) :
    st'.orders = st.orders ∧ st'.order_items = st.order_items ∧
      st'.nextOrderId = st.nextOrderId := by
  by_cases hc : (st.products.any (fun p => p.id = pid) &&
      st.order_items.any (fun oi => oi.product_id = pid)) = true
  · simp [deleteProduct, hc] at h
  · simp only [deleteProduct, if_neg hc] at h
    obtain ⟨h1, -⟩ := Prod.mk.injEq .. ▸ Option.some.injEq .. ▸ h
    rw [← h1]
    exact ⟨rfl, rfl, rfl⟩

/-- The order update preserves the bookkeeping and the totals
invariant: it rewrites only status, notes and `updated_at`. -/
theorem updateOrder_preserves {t oid : Nat} {st : Store} {u : OrderUpdate}
    (hwf : OrdersWf st) (hinv : TotalsInv st) :
    OrdersWf (updateOrder t st oid u).1 ∧ TotalsInv (updateOrder t st oid u).1 := by
  obtain ⟨w1, w2, w3⟩ := hwf
  have hid : ∀ o : Order,
      (if o.id = oid then applyOrderUpdate t u o else o).id = o.id := by
    intro o
    by_cases h : o.id = oid <;> simp [h, applyOrderUpdate]
  have htot : ∀ o : Order,
      (if o.id = oid then applyOrderUpdate t u o else o).total_cents
        = o.total_cents := by
    intro o
    by_cases h : o.id = oid <;> simp [h, applyOrderUpdate]
  refine ⟨⟨?_, ?_, ?_⟩, ?_⟩
  · intro o hmem
    simp only [updateOrder, List.mem_map] at hmem
    obtain ⟨o0, ho0, rfl⟩ := hmem
    rw [hid o0]
    exact w1 o0 ho0
  · exact w2
  · simp only [updateOrder]
    rw [List.map_map]
    have : ((fun o : Order => o.id) ∘
        (fun o => if o.id = oid then applyOrderUpdate t u o else o))
        = fun o : Order => o.id := funext (fun o => hid o)
    rw [this]
    exact w3
  · intro o hmem
    simp only [updateOrder, List.mem_map] at hmem
    obtain ⟨o0, ho0, rfl⟩ := hmem
    rw [hid o0, htot o0]
    exact hinv o0 ho0

/-- The order delete preserves the bookkeeping and the totals
invariant: the deleted order's items go with it and other orders keep
their items. -/
theorem deleteOrder_preserves {oid : Nat} {st : Store}
    (hwf : OrdersWf st) (hinv : TotalsInv st) :
    OrdersWf (deleteOrder st oid).1 ∧ TotalsInv (deleteOrder st oid).1 := by
  obtain ⟨w1, w2, w3⟩ := hwf
  refine ⟨⟨?_, ?_, ?_⟩, ?_⟩
  · intro o hmem
    exact w1 o (List.Sublist.mem hmem (List.filter_sublist st.orders))
  · intro oi hmem
    exact w2 oi (List.Sublist.mem hmem (List.filter_sublist st.order_items))
  · exact List.Sublist.nodup (List.Sublist.map _ (List.filter_sublist st.orders)) w3
  · intro o hmem
    have ho : o ∈ st.orders :=
      List.Sublist.mem hmem (List.filter_sublist st.orders)
    have hne : ¬ o.id = oid := by
      have := (List.mem_filter.mp hmem).2
      simpa using this
    have hfilter : itemsOfOrder (deleteOrder st oid).1 o.id
        = itemsOfOrder st o.id := by
      simp only [itemsOfOrder, deleteOrder]
      rw [List.filter_filter]
      refine List.filter_congr (fun oi _ => ?_)
      by_cases h : oi.order_id = o.id
      · simp [h, hne]
      · simp [h]
    rw [hfilter]
    exact hinv o ho

/-- The customer cascade delete preserves the bookkeeping and the
totals invariant: every surviving order keeps exactly its items. -/
theorem deleteCustomer_preserves {cid : Nat} {st : Store}
    (hwf : OrdersWf st) (hinv : TotalsInv st) :
    OrdersWf (deleteCustomer st cid).1 ∧ TotalsInv (deleteCustomer st cid).1 := by
  obtain ⟨w1, w2, w3⟩ := hwf
  refine ⟨⟨?_, ?_, ?_⟩, ?_⟩
  · intro o hmem
    exact w1 o (List.Sublist.mem hmem (List.filter_sublist st.orders))
  · intro oi hmem
    exact w2 oi (List.Sublist.mem hmem (List.filter_sublist st.order_items))
  · exact List.Sublist.nodup (List.Sublist.map _ (List.filter_sublist st.orders)) w3
  · intro o hmem
    have ho : o ∈ st.orders :=
      List.Sublist.mem hmem (List.filter_sublist st.orders)
    have hcust : ¬ o.customer_id = cid := by
      have := (List.mem_filter.mp hmem).2
      simpa using this
    have hfilter : itemsOfOrder (deleteCustomer st cid).1 o.id
        = itemsOfOrder st o.id := by
      simp only [itemsOfOrder, deleteCustomer]
      rw [List.filter_filter]
      refine List.filter_congr (fun oi _ => ?_)
      by_cases h : oi.order_id = o.id
      · simp only [h]
        simp
        intro x hx hxid
        have : x = o := List.inj_on_of_nodup_map w3 hx ho hxid
        rw [this]
        exact hcust
      · simp [h]
    rw [hfilter]
    exact hinv o ho

/-- Replacing only the orders list leaves `itemsOfOrder` unchanged. -/
theorem itemsOfOrder_setOrders (st : Store) (l : List Order) (oid : Nat) :
    itemsOfOrder { st with orders := l } oid = itemsOfOrder st oid := rfl

/-- A successful create-order preserves the bookkeeping and the
totals invariant: the fresh order's `total_cents` is written as the
sum of exactly its inserted items. -/
theorem createOrder_preserves {t : Nat} {st st' : Store} {i : OrderInput}
    {r : HResp} (h : createOrder t st i = some (st', r))
    (hwf : OrdersWf st) (hinv : TotalsInv st) :
    OrdersWf st' ∧ TotalsInv st' := by
  obtain ⟨w1, w2, w3⟩ := hwf
  cases hcid : i.customer_id with
  | none => simp [createOrder, hcid] at h
  | some cid =>
    by_cases hcust : st.customers.any (fun c => c.id = cid) = true
    case neg => simp [createOrder, hcid, hcust] at h
    case pos =>
    have hofresh : ∀ o ∈ st.orders, o.id ≠ st.nextOrderId :=
      fun o ho => Nat.ne_of_lt (w1 o ho)
    have hifresh : ∀ oi ∈ st.order_items, oi.order_id ≠ st.nextOrderId :=
      fun oi hoi => Nat.ne_of_lt (w2 oi hoi)
    obtain ⟨L, h1, h2, h3, h4, h5, h6, h7, h8, h9⟩ :=
      insertItems_spec st.nextOrderId
        { st with
          orders := st.orders ++
            [⟨st.nextOrderId, cid, "Pending", 0, i.currency, i.notes, t, t⟩]
          nextOrderId := st.nextOrderId + 1 }
        i.items
    set r0 := insertItems st.nextOrderId
        { st with
          orders := st.orders ++
            [⟨st.nextOrderId, cid, "Pending", 0, i.currency, i.notes, t, t⟩]
          nextOrderId := st.nextOrderId + 1 }
        i.items with hr0
    have h1' : r0.1.order_items = st.order_items ++ L := by simpa using h1
    have h6' : r0.1.nextOrderId = st.nextOrderId + 1 := by simpa using h6
    have hmap : r0.1.orders.map
        (fun o' => if o'.id = st.nextOrderId then
          { o' with total_cents := r0.2, updated_at := t } else o')
        = st.orders ++
          [⟨st.nextOrderId, cid, "Pending", r0.2, i.currency, i.notes, t, t⟩] := by
      rw [h4]
      rw [List.map_append]
      congr 1
      · refine (List.map_congr_left fun o ho => ?_).trans st.orders.map_id
        simp [hofresh o ho]
      · simp
    have hfind : List.find?
        (fun o => o.id = st.nextOrderId)
        (st.orders ++
          [⟨st.nextOrderId, cid, "Pending", r0.2, i.currency, i.notes, t, t⟩])
        = some ⟨st.nextOrderId, cid, "Pending", r0.2, i.currency, i.notes, t, t⟩ := by
      rw [List.find?_append]
      have hnone : List.find? (fun o => o.id = st.nextOrderId) st.orders = none :=
        List.find?_eq_none.mpr (fun o ho => by simp [hofresh o ho])
      rw [hnone]
      simp
    simp only [createOrder, hcid, hcust, ← hr0] at h
    rw [hmap] at h
    simp only [findOrder] at h
    rw [hfind] at h
    simp only [if_true, Option.some.injEq, Prod.mk.injEq] at h
    obtain ⟨hst, -⟩ := h
    rw [← hst]
    have hitems : ∀ x : Nat, x ≠ st.nextOrderId →
        List.filter (fun oi => oi.order_id = x) L = [] := by
      intro x hx
      refine List.filter_eq_nil_iff.mpr (fun oi hoi => ?_)
      rw [h7 oi hoi]
      simp [Ne.symm hx]
    refine ⟨⟨?_, ?_, ?_⟩, ?_⟩
    · intro o hmem
      simp only [h6']
      rcases List.mem_append.mp hmem with hold | hnew
      · exact Nat.lt_succ_of_lt (w1 o hold)
      · rw [List.mem_singleton.mp hnew]
        exact Nat.lt_succ_self _
    · intro oi hmem
      simp only [h6']
      rw [show ({ r0.1 with orders := st.orders ++
          [⟨st.nextOrderId, cid, "Pending", r0.2, i.currency, i.notes, t, t⟩]
          } : Store).order_items = r0.1.order_items from rfl, h1'] at hmem
      rcases List.mem_append.mp hmem with hold | hL
      · exact Nat.lt_succ_of_lt (w2 oi hold)
      · rw [h7 oi hL]
        exact Nat.lt_succ_self _
    · show ((st.orders ++ _).map _).Nodup
      rw [List.map_append]
      rw [List.nodup_append]
      refine ⟨w3, by simp, ?_⟩
      intro a ha hb
      simp only [List.map_cons, List.map_nil, List.mem_singleton] at hb
      rw [hb] at ha
      obtain ⟨o, ho, hoid⟩ := List.mem_map.mp ha
      exact Nat.ne_of_lt (w1 o ho) hoid
    · intro o hmem
      rcases List.mem_append.mp hmem with hold | hnew
      · have hbase := hinv o hold
        rw [itemsOfOrder_setOrders]
        simp only [itemsOfOrder] at hbase ⊢
        rw [h1', List.filter_append,
          hitems o.id (Nat.ne_of_lt (w1 o hold)), List.append_nil]
        exact hbase
      · rw [List.mem_singleton.mp hnew]
        rw [itemsOfOrder_setOrders]
        simp only [itemsOfOrder]
        rw [h1', List.filter_append]
        rw [List.filter_eq_nil_iff.mpr
          (fun oi hoi => by simp [hifresh oi hoi])]
        rw [List.filter_eq_self.mpr (fun oi hoi => by simp [h7 oi hoi])]
        simpa using h9

/-- All reachable stores satisfy the bookkeeping facts and the totals
invariant. -/
theorem reachable_wf_inv : ∀ st : Store, Reachable st →
    OrdersWf st ∧ TotalsInv st := by
  intro st h
  induction h with
  | init =>
    refine ⟨⟨?_, ?_, ?_⟩, ?_⟩ <;> simp [emptyStore, OrdersWf, TotalsInv]
  | stepCreateCustomer _ e ih =>
    obtain ⟨f1, f2, f3⟩ := createCustomer_frame e
    exact ⟨ordersWf_frame f1 f2 f3 ih.1, totalsInv_frame f1 f2 ih.2⟩
  | stepUpdateCustomer _ ih =>
    exact ⟨ordersWf_frame rfl rfl rfl ih.1, totalsInv_frame rfl rfl ih.2⟩
  | stepDeleteCustomer _ ih =>
    exact deleteCustomer_preserves ih.1 ih.2
  | stepCreateProduct _ e ih =>
    obtain ⟨f1, f2, f3⟩ := createProduct_frame e
    exact ⟨ordersWf_frame f1 f2 f3 ih.1, totalsInv_frame f1 f2 ih.2⟩
  | stepUpdateProduct h ih =>
    rename_i st0 pid u
    have ho : (updateProduct st0 pid u).1.orders = st0.orders := by
      by_cases hf : u.hasField <;> simp [updateProduct, hf]
    have hoi : (updateProduct st0 pid u).1.order_items = st0.order_items := by
      by_cases hf : u.hasField <;> simp [updateProduct, hf]
    have hn : (updateProduct st0 pid u).1.nextOrderId = st0.nextOrderId := by
      by_cases hf : u.hasField <;> simp [updateProduct, hf]
    exact ⟨ordersWf_frame ho hoi hn ih.1, totalsInv_frame ho hoi ih.2⟩
  | stepDeleteProduct _ e ih =>
    obtain ⟨f1, f2, f3⟩ := deleteProduct_frame e
    exact ⟨ordersWf_frame f1 f2 f3 ih.1, totalsInv_frame f1 f2 ih.2⟩
  | stepCreateOrder _ e ih =>
    exact createOrder_preserves e ih.1 ih.2
  | stepUpdateOrder _ ih =>
    exact updateOrder_preserves ih.1 ih.2
  | stepDeleteOrder _ ih =>
    exact deleteOrder_preserves ih.1 ih.2
  | stepCreateCase _ e ih =>
    obtain ⟨f1, f2, f3⟩ := createCase_frame e
    exact ⟨ordersWf_frame f1 f2 f3 ih.1, totalsInv_frame f1 f2 ih.2⟩
  | stepUpdateCase _ ih =>
    exact ⟨ordersWf_frame rfl rfl rfl ih.1, totalsInv_frame rfl rfl ih.2⟩
  | stepDeleteCase _ ih =>
    exact ⟨ordersWf_frame rfl rfl rfl ih.1, totalsInv_frame rfl rfl ih.2⟩

/-- C2: on every reachable store, every order's `total_cents` equals
the sum of its items' `line_total_cents`; the order update handler
honours only `status` and `notes`, so a `total_cents` key in the input
never changes the result, and no order update changes any stored
total. -/
theorem order_totals_invariant :
    (∀ st : Store, Reachable st → TotalsInv st) ∧
    (∀ (t : Nat) (st : Store) (oid : Nat) (s : Option String)
        (n : Option (Option String)) (tc tc' : Option Int),
      updateOrder t st oid ⟨s, n, tc⟩ = updateOrder t st oid ⟨s, n, tc'⟩) ∧
    (∀ (t : Nat) (st : Store) (oid : Nat) (u : OrderUpdate),
      (updateOrder t st oid u).1.orders.map (fun o => (o.id, o.total_cents))
        = st.orders.map (fun o => (o.id, o.total_cents))) := by
  refine ⟨fun st h => (reachable_wf_inv st h).2, fun t st oid s n tc tc' => rfl,
    fun t st oid u => ?_⟩
  simp only [updateOrder]
  rw [List.map_map]
  refine List.map_congr_left (fun o _ => ?_)
  by_cases h : o.id = oid <;> simp [h, applyOrderUpdate, Function.comp]

/-- C2 witness: a store reached by creating one customer satisfies the
totals invariant. -/
theorem order_totals_invariant_witness :
    Reachable oneCustomerStore ∧ TotalsInv oneCustomerStore := by
  have hreach : Reachable oneCustomerStore :=
    @Reachable.stepCreateCustomer emptyStore oneCustomerStore 0
      ⟨some "Jane", "Individual", none, none, "Active"⟩
      ⟨201, .customerPlain ⟨1, "Jane", "Individual", none, none, "Active", 0, 0⟩⟩
      Reachable.init (by decide)
  exact ⟨hreach, order_totals_invariant.1 oneCustomerStore hreach⟩

end CRM
